import Mathlib

/-!
Verification development for the taft template-composition engine
(src/index.js).  The JavaScript is shallowly embedded: mutable objects
become association lists, the Handlebars engine and the file system are
abstract collaborators supplied through an environment record, thrown
exceptions become Except values, and console diagnostics become a log
list threaded through an explicit state.
-/

/-- A JavaScript value, restricted to the shapes the engine manipulates:
undefined, null, booleans, numbers, strings and plain objects.  Objects
are insertion-ordered association lists, as JavaScript objects are. -/
inductive JVal where
  | undef : JVal
  | null : JVal
  | bool : Bool → JVal
  | num : Int → JVal
  | str : String → JVal
  | obj : List (String × JVal) → JVal

/-- A JavaScript object: ordered fields with (in practice) unique keys. -/
abbrev JObj := List (String × JVal)

/-- Property read, first matching key (JavaScript objects hold one entry
per key, so first match is the only match on well-formed objects). -/
def aget {α : Type} (m : List (String × α)) (k : String) : Option α :=
  match m with
  | [] => none
  | (k0, v0) :: ms => if k0 = k then some v0 else aget ms k

/-- Property write: updating an existing key keeps its position, a new
key is appended, exactly as JavaScript object assignment behaves. -/
def aset {α : Type} (m : List (String × α)) (k : String) (v : α) : List (String × α) :=
  match m with
  | [] => [(k, v)]
  | (k0, v0) :: ms => if k0 = k then (k0, v) :: ms else (k0, v0) :: aset ms k v

/-- Read a field of a nested object: agetIn m a b is m[a][b] when m[a]
is an object, and absent otherwise. -/
def agetIn (m : JObj) (k1 k2 : String) : Option JVal :=
  match aget m k1 with
  | some (.obj fields) => aget fields k2
  | _ => none

/-- The keys of an association list are pairwise distinct.  JavaScript
objects satisfy this by construction. -/
abbrev nodupKeys {α : Type} (l : List (String × α)) : Prop :=
  (l.map Prod.fst).Nodup

/-- The default (non-recursive) merge of the merge npm package
(version ^1.2.1, pinned in package.json), which src/index.js calls both
as merge(a, b) and as merge(true, a, b): every own key of b is copied
into a wholesale, so a key present in both sides takes the value from b
and nested objects are replaced, not merged.  The package also exports
merge.recursive, which src/index.js never calls.  Mutation of the first
argument and the defensive deep clone taken in the merge(true, ...)
form are invisible in a pure model, so both call shapes denote this one
function. -/
def mergeObjs (a b : JObj) : JObj :=
  b.foldl (fun acc kv => aset acc kv.1 kv.2) a

/-- First defined option: firstSome a b is a when a is present else b. -/
def firstSome {α : Type} : Option α → Option α → Option α
  | some v, _ => some v
  | none, b => b

/-- JavaScript truthiness of a JVal, as tested by if (!layout) and
similar guards in src/index.js. -/
def truthy : JVal → Bool
  | .undef => false
  | .null => false
  | .bool b => b
  | .num n => n != 0
  | .str s => s != ""
  | .obj _ => true

/-- Truthiness of a possibly-absent value (an unread property). -/
def truthyOpt : Option JVal → Bool
  | none => false
  | some v => truthy v

/-- Truthiness of a possibly-absent string, for fields such as
this.defaultLayout that hold either undefined or a string. -/
def optStrTruthy : Option String → Bool
  | none => false
  | some s => s != ""

/-- JavaScript string coercion of a JVal, used when error messages
concatenate a value into a string. -/
def jvalString : JVal → String
  | .undef => "undefined"
  | .null => "null"
  | .bool b => if b then "true" else "false"
  | .num n => toString n
  | .str s => s
  | .obj _ => "[object Object]"

/-- JavaScript String.prototype.trimLeft: drop leading whitespace. -/
def jsTrimLeft (s : String) : String :=
  String.mk (s.toList.dropWhile Char.isWhitespace)

/-- Node path.basename: the component after the last separator, with
trailing separators dropped.  Degenerate all-separator paths are not
reproduced exactly; they never reach this engine. -/
def basename (p : String) : String :=
  String.mk ((p.toList.reverse.dropWhile (fun c => c = '/')).reverse.foldl
    (fun acc c => if c = '/' then [] else acc ++ [c]) [])

/-- Index of the last dot of a character list, scanning left to right. -/
def lastDotPosAux : List Char → Nat → Option Nat → Option Nat
  | [], _, acc => acc
  | c :: cs, i, acc => lastDotPosAux cs (i + 1) (if c = '.' then some i else acc)

/-- Index of the last dot of a character list, if any. -/
def lastDotPos (l : List Char) : Option Nat :=
  lastDotPosAux l 0 none

/-- Node path.extname: the suffix of the basename from its last dot,
empty when there is no dot or the only dot leads the name (dotfiles
have no extension).  All-dot basenames are not reproduced exactly; they
never reach this engine. -/
def extname (p : String) : String :=
  match lastDotPos (basename p).toList with
  | none => ""
  | some 0 => ""
  | some i => String.mk ((basename p).toList.drop i)

/-- stripExtname from src/index.js line 36: the basename with its
extension removed, via path.basename(file, path.extname(file)). -/
def stripExtname (file : String) : String :=
  String.mk ((basename file).toList.take
    ((basename file).toList.length - (extname file).toList.length))

/-- A thrown JavaScript error: an optional code property (fs errors set
codes such as EISDIR) and a message. -/
structure JsError where
  code : Option String
  message : String

/-- The result of rendering one template.  Modelled from the spec:
lib/content is not under src/, so Content is taken from section 3 of
the specification: a rendered body string, the fully resolved data
mapping used to render it, and the originating file, set by the
top-level build call only.  Its toString returns the body, and the
zero-argument constructor used on the build error path produces an
empty body and empty data. -/
structure Content where
  body : String
  data : JObj
  source : Option String

/-- The closure produced by Taft.prototype.createTemplate,
defunctionalized: it captures the file path, the trimmed page source,
the base data (front matter merged over the global store) and the
isLayout flag; rendering it is Taft.renderTemplate below. -/
structure Template where
  file : String
  page : String
  data : JObj
  isLayout : Bool

/-- An entry of the layouts registry Map: an unresolved file path, or
the memoized result of compiling it (none when the layout file was
skipped because its front matter set published to false). -/
inductive LayoutVal where
  | path (p : String)
  | compiled (t : Option Template)

/-- The mutable state of one Taft instance together with the shared
Handlebars registries it drives: the global data store, the layouts
Map, the default layout, the defaultLayout constructor option, the
engine-owned partials and known-helper names, the silent and verbose
flags, and the accumulated console diagnostics. -/
structure TaftState where
  data : JObj
  layouts : List (String × LayoutVal)
  defaultLayout : Option String
  optionsDefaultLayout : Option String
  partials : List (String × String)
  helpers : List String
  silent : Bool
  verbose : Bool
  log : List String

/-- Taft.prototype.err: writes unconditionally to the console (the
source does not consult the silent flag here). -/
def errLog (st : TaftState) (m : String) : TaftState :=
  { st with log := st.log ++ [m] }

/-- Taft.prototype.info: writes unless silent. -/
def infoLog (st : TaftState) (m : String) : TaftState :=
  if st.silent then st else errLog st m

/-- Taft.prototype.debug: writes only when verbose and not silent. -/
def debugLog (st : TaftState) (m : String) : TaftState :=
  if st.verbose && !st.silent then errLog st m else st

/-- Handlebars.registerPartial on the shared engine registry. -/
def setPartialEntry (st : TaftState) (name content : String) : TaftState :=
  { st with partials := aset st.partials name content }

/-- Handlebars.unregisterPartial on the shared engine registry. -/
def dropPartialEntry (st : TaftState) (name : String) : TaftState :=
  { st with partials := st.partials.filter (fun kv => !(kv.1 == name)) }

/-- The external collaborators of the engine: gray-matter file reading
(front matter plus body, or a thrown error), the Handlebars compiler
applied to a context given the known helper names and the current
partial registry, and path.resolve.  All are abstract, as the spec
directs. -/
structure Env where
  fs : String → Except JsError (JObj × String)
  compile : String → List String → List (String × String) → JObj → Except JsError String
  resolve : String → String

/-- The normalization Taft.prototype.getLayout applies to a requested
layout name: ignore the extension if one was passed. -/
def layoutKeyOf (name : String) : String :=
  if extname name = "" then name else stripExtname name

/-- Taft.prototype.createTemplate (src/index.js lines 190-222, up to and
excluding the returned closure).  Reads the file with gray-matter (a
thrown read or parse error propagates), trims the body on the left,
returns absent when front matter sets published to exactly false or 0,
suppresses layout inheritance when front matter sets layout to exactly
false or 0, otherwise assigns the default layout when the layout key is
falsy, a truthy default exists and the file is not itself a layout, and
finally captures merge(true, this.data, context) as the base data of
the returned template. -/
def Taft.createTemplate (env : Env) (file : String) (isLayout : Bool) (st : TaftState) :
    Except JsError (Option Template) × TaftState :=
  match env.fs file with
  | .error e => (.error e, st)
  | .ok (context, content) =>
    let page := jsTrimLeft content
    match aget context "published" with
    | some (.bool false) => (.ok none, st)
    | some (.num 0) => (.ok none, st)
    | _ =>
      let step :
          JObj × TaftState :=
        match aget context "layout" with
        | some (.bool false) => (context, debugLog st ("not using layout with " ++ file))
        | some (.num 0) => (context, debugLog st ("not using layout with " ++ file))
        | other =>
          match st.defaultLayout with
          | some d =>
            if truthyOpt other = false && d != "" && !isLayout then
              (aset context "layout" (JVal.str d), st)
            else (context, st)
          | none => (context, st)
      (.ok (some { file := file, page := page, data := mergeObjs st.data step.1,
                   isLayout := isLayout }),
       step.2)

/-- Taft.prototype.getLayout (src/index.js lines 127-147): normalize
the requested name, emit a console error and return absent when the
name is not registered, compile a still-unresolved path entry through
createTemplate with isLayout true and memoize the result in the Map
(including an absent result for an unpublished layout), and return a
memoized entry as is.  A read error thrown by createTemplate
propagates to the caller. -/
def Taft.getLayout (env : Env) (name : String) (st : TaftState) :
    Except JsError (Option Template) × TaftState :=
  match aget st.layouts (layoutKeyOf name) with
  | none => (.ok none, errLog st ("could not find layout: " ++ layoutKeyOf name))
  | some (.path p) =>
    match Taft.createTemplate env p true st with
    | (.error e, st1) => (.error e, st1)
    | (.ok tpl, st1) =>
      (.ok tpl, { st1 with layouts := aset st1.layouts (layoutKeyOf name) (.compiled tpl) })
  | some (.compiled tpl) => (.ok tpl, st)

/-- The signature of a compiled template render: call-time data, the
preferGlobal flag and the current state, yielding a rendered Content or
a thrown error, plus the updated shared state. -/
abbrev RenderFn := Template → JObj → Bool → TaftState → Except JsError Content × TaftState

/-- The merge at the head of the render closure (src/index.js line
211): with preferGlobal the base data of the file overrides the passed
page data, as merge(pageData, data); otherwise the call-time data
overrides the base data, as merge(true, data, pageData). -/
def tplDataOf (t : Template) (pageData : JObj) (preferGlobal : Bool) : JObj :=
  if preferGlobal then mergeObjs pageData t.data else mergeObjs t.data pageData

/-- The try block of Taft.prototype.applyLayout (src/index.js lines
162-175), parameterized over the render function used for the resolved
layout template.  Resolves the layout (an unresolvable name returns
the content unchanged), registers the content body as the reserved
partial named body, clones the page data into a nested page key when
the content is a page rather than a layout, and renders the layout
with the content data and preferGlobal set.  A truthy non-string
layout value makes path.extname throw inside the try block. -/
def Taft.applyLayoutTryWith (env : Env) (render : RenderFn) (layout : JVal)
    (content : Content) (isLayout : Bool) (st : TaftState) :
    Except JsError Content × TaftState :=
  match layout with
  | .str name =>
    match Taft.getLayout env name st with
    | (.error e, st1) => (.error e, st1)
    | (.ok none, st1) => (.ok content, st1)
    | (.ok (some tpl), st1) =>
      let st2 := setPartialEntry st1 "body" content.body
      let contentData :=
        if isLayout then content.data
        else aset content.data "page" (JVal.obj content.data)
      render tpl contentData true st2
  | _ => (.error { code := none, message := "layout name must be a string" }, st)

/-- Taft.prototype.applyLayout (src/index.js lines 157-183),
parameterized over the render function: a falsy layout returns the
content untouched before the try block; otherwise the try block runs,
any error it throws is rethrown wrapped with the layout name and the
original message, and the finally clause unregisters the reserved body
partial on every exit path of the try block. -/
def Taft.applyLayoutWith (env : Env) (render : RenderFn) (layout : JVal)
    (content : Content) (isLayout : Bool) (st : TaftState) :
    Except JsError Content × TaftState :=
  if truthy layout then
    match Taft.applyLayoutTryWith env render layout content isLayout st with
    | (.ok c, st1) => (.ok c, dropPartialEntry st1 "body")
    | (.error e, st1) =>
      (.error { code := none,
                message := "unable to render layout " ++ jvalString layout
                  ++ " (" ++ e.message ++ ")" },
       dropPartialEntry st1 "body")
  else (.ok content, st)

/-- The render closure returned by Taft.prototype.createTemplate
(src/index.js lines 210-221).  The Nat argument is recursion fuel for
the layout chain, which the JavaScript leaves unbounded (a layout
cycle would loop forever); each theorem below holds for every
sufficient fuel.  The closure merges its data per tplDataOf, clears
the layout key when it names the file itself (with or without
extension), compiles the page against the current helper and partial
registries, wraps the output in a Content carrying the merged data,
and hands the result to applyLayout together with the resolved layout
value. -/
def Taft.renderTemplate (env : Env) : Nat → RenderFn
  | 0, _, _, _, st =>
    (.error { code := none, message := "model: layout recursion fuel exhausted" }, st)
  | fuel + 1, t, pageData, preferGlobal, st =>
    let tplData0 := tplDataOf t pageData preferGlobal
    let tplData :=
      match aget tplData0 "layout" with
      | some (.str s) =>
        if s = basename t.file ∨ s = stripExtname t.file then
          aset tplData0 "layout" JVal.undef
        else tplData0
      | _ => tplData0
    match env.compile t.page st.helpers st.partials tplData with
    | .error e => (.error e, st)
    | .ok body =>
      Taft.applyLayoutWith env (Taft.renderTemplate env fuel)
        ((aget tplData "layout").getD JVal.undef)
        { body := body, data := tplData, source := none }
        t.isLayout st

/-- Taft.prototype.applyLayout with the concrete render function, at a
given recursion fuel. -/
def Taft.applyLayout (env : Env) (fuel : Nat) :
    JVal → Content → Bool → TaftState → Except JsError Content × TaftState :=
  Taft.applyLayoutWith env (Taft.renderTemplate env fuel)

/-- The try block of Taft.prototype.build (src/index.js lines 261-272):
create the template for the resolved path, report an absent template
(an unpublished page) as a skip after a debug line, otherwise render it
with the call-time data.  A call-time data argument of undefined merges
exactly like an empty object, so absent data is passed as []. -/
def Taft.buildTry (env : Env) (fuel : Nat) (file : String) (data : JObj) (st : TaftState) :
    Except JsError (Option Content) × TaftState :=
  match Taft.createTemplate env (env.resolve file) false st with
  | (.error e, st1) => (.error e, st1)
  | (.ok none, st1) => (.ok none, debugLog st1 ("ignoring " ++ file))
  | (.ok (some tpl), st1) =>
    match Taft.renderTemplate env fuel tpl data false (debugLog st1 ("building: " ++ file)) with
    | (.ok c, st2) => (.ok (some c), st2)
    | (.error e, st2) => (.error e, st2)

/-- Taft.prototype.build (src/index.js lines 258-284): a skipped page
returns undefined; a thrown error whose code is EISDIR returns
undefined (directories are ignored); any other thrown error is logged
and replaced by an empty Content; whatever content survives gets its
source property set to the file argument. -/
def Taft.build (env : Env) (fuel : Nat) (file : String) (data : JObj) (st : TaftState) :
    Option Content × TaftState :=
  match Taft.buildTry env fuel file data st with
  | (.ok none, st1) => (none, st1)
  | (.ok (some c), st1) => (some { c with source := some file }, st1)
  | (.error e, st1) =>
    if e.code = some "EISDIR" then (none, st1)
    else (some { body := "", data := [], source := some file },
          errLog st1 ("error building " ++ file ++ ": " ++ e.message))

/-- One step of Taft.prototype.data (src/index.js lines 234-253) for a
single source, given the textual form of the argument and the result
of decoding it through Data.parse (lib/data, an out-of-scope
structured-data decoder per the spec): a decode error is logged and the
source skipped; a decoded mapping is logged at debug level and merged
into the global store with merge(this.data, data). -/
def dataStep (st : TaftState) (source : String × Except JsError JObj) : TaftState :=
  match source.2 with
  | .error e => errLog st e.message
  | .ok d =>
    let st1 :=
      match d.map Prod.fst with
      | [k] => debugLog st ("parsed " ++ k)
      | _ :: _ :: _ => debugLog st ("parsed " ++ source.1.take 60)
      | [] => st
    { st1 with data := mergeObjs st1.data d }

/-- Taft.prototype.data (src/index.js lines 230-256): fold the decoded
sources into the global store in call order. -/
def Taft.data (sources : List (String × Except JsError JObj)) (st : TaftState) : TaftState :=
  sources.foldl dataStep st

/-- The Map population loop of Taft.prototype.layouts: each item (a
file path, after mergeGlob expansion by the out-of-scope globbing
collaborator) is stored under its basename without extension. -/
def layoutsRegister (items : List String) (m : List (String × LayoutVal)) :
    List (String × LayoutVal) :=
  items.foldl (fun acc item => aset acc (stripExtname item) (LayoutVal.path item)) m

/-- The default-layout assignment of Taft.prototype.layouts (src/index.js
lines 93-98): when the Map holds exactly one layout, its name (this is
an unconditional assignment, performed on every registering call);
otherwise a truthy defaultLayout constructor option, stripped of its
extension and not checked against the registry; otherwise the default
is left as it was. -/
def layoutsDefaultAfter (m : List (String × LayoutVal)) (st : TaftState) : Option String :=
  match m with
  | [(name, _)] => some name
  | _ =>
    match st.optionsDefaultLayout with
    | some d => if d != "" then some (stripExtname d) else st.defaultLayout
    | none => st.defaultLayout

/-- Taft.prototype.layouts (src/index.js lines 81-104) in its
registering form: populate the Map, log the registered names, apply
the default-layout assignment rule, and finally log a truthy resulting
default. -/
def Taft.layouts (items : List String) (st : TaftState) : TaftState :=
  let m := layoutsRegister items st.layouts
  let st1 := debugLog { st with layouts := m }
    ("added layouts: " ++ String.intercalate ", " (m.map Prod.fst))
  let st2 := { st1 with defaultLayout := layoutsDefaultAfter m st }
  if optStrTruthy st2.defaultLayout then
    debugLog st2 ("set default layout to " ++ st2.defaultLayout.getD "")
  else st2

/-- Taft.prototype.defaultLayout (src/index.js lines 109-120) in its
setting form: strip the extension, install the name as default only
when it is a key of the layouts Map, and otherwise leave the default
untouched and emit an informational diagnostic. -/
def Taft.defaultLayout (layout : String) (st : TaftState) : TaftState :=
  if (st.layouts.map Prod.fst).contains (stripExtname layout) then
    { st with defaultLayout := some (stripExtname layout) }
  else infoLog st ("Not setting default layout. Could not find: " ++ stripExtname layout)

/-- The state of new Taft({}) before any registration: empty store and
registries, no default layout, diagnostics enabled. -/
def st0 : TaftState :=
  { data := [], layouts := [], defaultLayout := none, optionsDefaultLayout := none,
    partials := [], helpers := [], silent := false, verbose := false, log := [] }

/-- An environment whose file reads all fail with a plain ENOENT error
and whose compiler echoes its source. -/
def envENOENT : Env :=
  { fs := fun _ => .error { code := some "ENOENT", message := "ENOENT" },
    compile := fun src _ _ _ => .ok src,
    resolve := fun f => f }

/-- An environment whose file reads fail with EISDIR, as reading a
directory does. -/
def envEISDIR : Env :=
  { fs := fun _ => .error { code := some "EISDIR", message := "illegal operation on a directory" },
    compile := fun src _ _ _ => .ok src,
    resolve := fun f => f }

/-- A page whose front matter requests the layout lay, that layout
registered but not yet compiled, and a compiler that throws only on the
layout body: the smallest scene in which a layout render fails. -/
def cexEnv : Env :=
  { fs := fun f =>
      if f = "page.html" then .ok ([("layout", JVal.str "lay")], "PAGE")
      else if f = "lay.html" then .ok ([], "LAYBODY")
      else .error { code := some "ENOENT", message := "no such file" },
    compile := fun src _ _ _ =>
      if src = "LAYBODY" then .error { code := none, message := "boom" } else .ok src,
    resolve := fun f => f }

/-- A state with the layout lay registered as an unresolved path. -/
def cexSt : TaftState :=
  { st0 with layouts := [("lay", LayoutVal.path "lay.html")] }

/-- The template cexEnv compiles for lay.html. -/
def layTpl : Template :=
  { file := "lay.html", page := "LAYBODY", data := [], isLayout := true }

/-- cexSt after getLayout has memoized lay and the reserved body
partial has been registered. -/
def stMemo : TaftState :=
  { cexSt with layouts := [("lay", LayoutVal.compiled (some layTpl))],
               partials := [("body", "PAGE")] }

/-- A content standing for an already-rendered page body whose merged
data requested the layout lay. -/
def pageContent : Content :=
  { body := "PAGE", data := [("layout", JVal.str "lay")], source := none }

/-- An environment for the self-layout scenario: the compiler echoes
the page source. -/
def env8 : Env :=
  { fs := fun _ => .error { code := some "ENOENT", message := "no such file" },
    compile := fun src _ _ _ => .ok src,
    resolve := fun f => f }

/-- A template for a.html whose base data names a, its own basename
without extension, as its layout. -/
def t8 : Template :=
  { file := "a.html", page := "BODY", data := [("layout", JVal.str "a")], isLayout := false }

/-- A template with base data for the merge-precedence witness. -/
def wTpl : Template :=
  { file := "f.html", page := "P", data := [("a", JVal.num 1), ("b", JVal.num 2)],
    isLayout := false }

/-- Call-time data for the merge-precedence witness. -/
def wCall : JObj := [("b", JVal.num 3), ("c", JVal.num 4)]

/-- An environment holding one page whose front matter sets published
to false. -/
def wEnv5 : Env :=
  { fs := fun f =>
      if f = "p.html" then .ok ([("published", JVal.bool false)], "X")
      else .error { code := some "ENOENT", message := "no such file" },
    compile := fun src _ _ _ => .ok src,
    resolve := fun f => f }

/-- A state registering that unpublished page as the layout p. -/
def wSt5 : TaftState :=
  { st0 with layouts := [("p", LayoutVal.path "p.html")] }

/-- A state whose constructor options name a default layout, nope,
that is never registered. -/
def st7 : TaftState :=
  { st0 with optionsDefaultLayout := some "nope" }

/-- A state with the layout a registered. -/
def wSt7 : TaftState :=
  { st0 with layouts := [("a", LayoutVal.path "a.html")] }

/-- The two data sources of the nested-merge counterexample: both hold
a mapping under the key k; the second lacks the y field the first
carries. -/
def dataCexSources : List (String × Except JsError JObj) :=
  [("A", .ok [("k", JVal.obj [("x", JVal.num 1), ("y", JVal.num 2)])]),
   ("B", .ok [("k", JVal.obj [("x", JVal.num 9)])])]

/-- A flat data source binding k. -/
def wA : JObj := [("k", JVal.num 1)]

/-- A second flat data source binding the same key k. -/
def wB : JObj := [("k", JVal.num 5)]

theorem errLog_data (st : TaftState) (m : String) : (errLog st m).data = st.data := rfl

theorem errLog_layouts (st : TaftState) (m : String) : (errLog st m).layouts = st.layouts := rfl

theorem errLog_defaultLayout (st : TaftState) (m : String) :
    (errLog st m).defaultLayout = st.defaultLayout := rfl

theorem infoLog_data (st : TaftState) (m : String) : (infoLog st m).data = st.data := by
  unfold infoLog errLog; split <;> rfl

theorem infoLog_defaultLayout (st : TaftState) (m : String) :
    (infoLog st m).defaultLayout = st.defaultLayout := by
  unfold infoLog errLog; split <;> rfl

theorem debugLog_data (st : TaftState) (m : String) : (debugLog st m).data = st.data := by
  unfold debugLog errLog; split <;> rfl

theorem debugLog_layouts (st : TaftState) (m : String) :
    (debugLog st m).layouts = st.layouts := by
  unfold debugLog errLog; split <;> rfl

theorem debugLog_defaultLayout (st : TaftState) (m : String) :
    (debugLog st m).defaultLayout = st.defaultLayout := by
  unfold debugLog errLog; split <;> rfl

theorem debugLog_partials (st : TaftState) (m : String) :
    (debugLog st m).partials = st.partials := by
  unfold debugLog errLog; split <;> rfl

theorem aget_aset {α : Type} (m : List (String × α)) (k : String) (v : α) (q : String) :
    aget (aset m k v) q = if q = k then some v else aget m q := by
  induction m with
  | nil =>
    by_cases h : q = k
    · simp [aset, aget, h]
    · simp [aset, aget, h, Ne.symm h]
  | cons kv ms ih =>
    obtain ⟨k0, v0⟩ := kv
    by_cases h0 : k0 = k
    · subst h0
      by_cases hq : q = k0
      · simp [aset, aget, hq]
      · simp [aset, aget, hq, Ne.symm hq]
    · by_cases hq : k0 = q
      · subst hq
        simp [aset, aget, h0]
      · simp [aset, aget, h0, hq, ih]

theorem aget_eq_none {α : Type} (m : List (String × α)) (k : String)
    (h : k ∉ m.map Prod.fst) : aget m k = none := by
  induction m with
  | nil => rfl
  | cons kv ms ih =>
    simp only [List.map_cons, List.mem_cons] at h
    push_neg at h
    have h1 : ¬ kv.1 = k := fun hh => h.1 (Eq.symm hh)
    simp [aget, h1, ih h.2]

theorem aget_mergeObjs (a b : JObj) (k : String) (hb : nodupKeys b) :
    aget (mergeObjs a b) k = firstSome (aget b k) (aget a k) := by
  induction b generalizing a with
  | nil => simp [mergeObjs, aget, firstSome]
  | cons kv bs ih =>
    obtain ⟨k0, v0⟩ := kv
    rw [nodupKeys, List.map_cons, List.nodup_cons] at hb
    have step : mergeObjs a ((k0, v0) :: bs) = mergeObjs (aset a k0 v0) bs := rfl
    rw [step, ih (aset a k0 v0) hb.2]
    by_cases hq : k0 = k
    · subst hq
      have e1 : aget bs k0 = none := aget_eq_none bs k0 hb.1
      have e2 : aget (aset a k0 v0) k0 = some v0 := by rw [aget_aset, if_pos rfl]
      have e3 : aget ((k0, v0) :: bs) k0 = some v0 := by simp [aget]
      rw [e1, e2, e3]
      rfl
    · have hk : ¬ k = k0 := fun h => hq (Eq.symm h)
      have e1 : aget ((k0, v0) :: bs) k = aget bs k := by simp [aget, hq]
      have e2 : aget (aset a k0 v0) k = aget a k := by rw [aget_aset, if_neg hk]
      rw [e1, e2]

theorem aget_filter_ne {α : Type} (l : List (String × α)) (k : String) :
    aget (l.filter (fun kv => !(kv.1 == k))) k = none := by
  induction l with
  | nil => rfl
  | cons kv ms ih =>
    obtain ⟨k0, v0⟩ := kv
    by_cases h : k0 = k
    · subst h
      simp [List.filter_cons, ih]
    · have hb : (k0 == k) = false := beq_eq_false_iff_ne.mpr h
      simp [List.filter_cons, hb, aget, h, ih]

theorem aget_dropPartialEntry (st : TaftState) (k : String) :
    aget (dropPartialEntry st k).partials k = none :=
  aget_filter_ne st.partials k

/-- C1: For every call to applyLayout with a truthy layout value that
resolves in the layout registry (so that the content body is
registered as the reserved body partial), the body partial is no
longer registered when applyLayout returns, on every exit path: the
try block may succeed or throw, but both continuations pass through
the finally clause that unregisters the partial. -/
theorem applyLayout_cleans_body_on_every_exit
    (env : Env) (fuel : Nat) (name : String) (content : Content) (isLayout : Bool)
    (st : TaftState) (tpl : Template)
    (hname : truthy (JVal.str name) = true)
    (hres : (Taft.getLayout env name st).1 = Except.ok (some tpl)) :
    aget ((Taft.applyLayout env fuel (JVal.str name) content isLayout st).2).partials "body"
      = none := by
  unfold Taft.applyLayout Taft.applyLayoutWith
  rw [hname, if_pos rfl]
  rcases h2 : Taft.applyLayoutTryWith env (Taft.renderTemplate env fuel) (JVal.str name)
      content isLayout st with ⟨res, st1⟩
  cases res
  · exact aget_dropPartialEntry st1 "body"
  · exact aget_dropPartialEntry st1 "body"

/-- Witness: a concrete resolving call of applyLayout leaves no body
partial registered. -/
theorem applyLayout_cleans_body_on_every_exit_witness :
    aget ((Taft.applyLayout cexEnv 2 (JVal.str "lay") pageContent false cexSt).2).partials "body"
      = none :=
  applyLayout_cleans_body_on_every_exit cexEnv 2 "lay" pageContent false cexSt layTpl rfl rfl

/-- C2: In the render closure, with preferGlobal set the base data of
the file (its front matter merged over the global store) overrides the
call data on every conflicting key, and with preferGlobal unset the
call data overrides the base data on every conflicting key; a key
present on only one side keeps its value in both modes. -/
theorem render_merge_precedence (t : Template) (callData : JObj) (k : String)
    (hbase : nodupKeys t.data) (hcall : nodupKeys callData) :
    aget (tplDataOf t callData true) k = firstSome (aget t.data k) (aget callData k) ∧
    aget (tplDataOf t callData false) k = firstSome (aget callData k) (aget t.data k) := by
  constructor
  · show aget (mergeObjs callData t.data) k = _
    exact aget_mergeObjs callData t.data k hbase
  · show aget (mergeObjs t.data callData) k = _
    exact aget_mergeObjs t.data callData k hcall

/-- Witness: on a concrete conflicting key the base data wins with
preferGlobal and the call data wins without it, and keys unique to
either side survive. -/
theorem render_merge_precedence_witness :
    aget (tplDataOf wTpl wCall true) "b" = some (JVal.num 2) ∧
    aget (tplDataOf wTpl wCall false) "b" = some (JVal.num 3) ∧
    aget (tplDataOf wTpl wCall true) "c" = some (JVal.num 4) ∧
    aget (tplDataOf wTpl wCall false) "a" = some (JVal.num 1) := by
  have h1 := render_merge_precedence wTpl wCall "b" (by decide) (by decide)
  have h2 := render_merge_precedence wTpl wCall "c" (by decide) (by decide)
  have h3 := render_merge_precedence wTpl wCall "a" (by decide) (by decide)
  exact ⟨h1.1.trans rfl, h1.2.trans rfl, h2.1.trans rfl, h3.2.trans rfl⟩

theorem dataStep_ok_data (st : TaftState) (s : String) (d : JObj) :
    (dataStep st (s, Except.ok d)).data = mergeObjs st.data d := by
  cases h : d.map Prod.fst with
  | nil => simp [dataStep, h]
  | cons a as =>
    cases as with
    | nil => simp [dataStep, h, debugLog_data]
    | cons b bs => simp [dataStep, h, debugLog_data]

/-- C3 counterexample: two sources both carrying a mapping under the
key k, merged in order through Taft.data.  The claim says the nested
mappings are merged key-wise, which would keep the y field of the
first source; the store instead holds exactly the second mapping, so
the y field is gone. -/
theorem data_nested_replaced_wholesale_cex :
    agetIn ((Taft.data dataCexSources st0).data) "k" "x" = some (JVal.num 9) ∧
    agetIn ((Taft.data dataCexSources st0).data) "k" "y" = none :=
  ⟨rfl, rfl⟩

/-- C3 amended: for data sources A then B added in that order, a
top-level key present in both resolves to the value from B and keys
unique to either side (or already in the store) are preserved; but the
merge is shallow, so the winning value replaces the earlier one
wholesale, including when both are nested mappings (the merge npm
package merges key-wise only in its merge.recursive form, which the
code does not call). -/
theorem data_merge_is_shallow (sa sb : String) (A B : JObj) (st : TaftState) (k : String)
    (hA : nodupKeys A) (hB : nodupKeys B) :
    aget ((Taft.data [(sa, Except.ok A), (sb, Except.ok B)] st).data) k
      = firstSome (aget B k) (firstSome (aget A k) (aget st.data k)) := by
  have e : (Taft.data [(sa, Except.ok A), (sb, Except.ok B)] st).data
      = mergeObjs (mergeObjs st.data A) B := by
    show (dataStep (dataStep st (sa, Except.ok A)) (sb, Except.ok B)).data = _
    rw [dataStep_ok_data (dataStep st (sa, Except.ok A)) sb B, dataStep_ok_data st sa A]
  rw [e, aget_mergeObjs _ _ _ hB, aget_mergeObjs _ _ _ hA]

/-- Witness: at two concrete flat sources sharing the key k, the later
source wins. -/
theorem data_merge_is_shallow_witness :
    aget ((Taft.data [("A", Except.ok wA), ("B", Except.ok wB)] st0).data) "k"
      = some (JVal.num 5) := by
  have h := data_merge_is_shallow "A" "B" wA wB st0 "k" (by decide) (by decide)
  exact h.trans rfl

/-- C4 counterexample: at a concrete page whose layout render throws,
applyLayout does rethrow the wrapped error, but build catches it,
logs it, and returns an empty Content with its source set instead of
propagating the error to its caller. -/
theorem layout_error_swallowed_by_build_cex :
    (Taft.applyLayout cexEnv 2 (JVal.str "lay") pageContent false cexSt).1
      = Except.error { code := none, message := "unable to render layout lay (boom)" } ∧
    Taft.build cexEnv 2 "page.html" [] cexSt
      = (some { body := "", data := [], source := some "page.html" },
         { cexSt with
             layouts := [("lay", LayoutVal.compiled (some layTpl))],
             log := ["error building page.html: unable to render layout lay (boom)"] }) :=
  ⟨rfl, rfl⟩

/-- C4 amended: an error thrown while rendering a layout is rethrown
by applyLayout wrapped with the layout name and the original message,
so it reaches the caller of the render closure; but build does not
propagate it further: it catches every non-EISDIR error, logs it, and
substitutes an empty Content whose source is the file argument. -/
theorem layout_error_wrapped_then_swallowed :
    (∀ (env : Env) (render : RenderFn) (layout : JVal) (content : Content) (isLayout : Bool)
       (st st1 : TaftState) (e : JsError),
       truthy layout = true →
       Taft.applyLayoutTryWith env render layout content isLayout st = (Except.error e, st1) →
       Taft.applyLayoutWith env render layout content isLayout st
         = (Except.error { code := none,
                           message := "unable to render layout " ++ jvalString layout
                             ++ " (" ++ e.message ++ ")" },
            dropPartialEntry st1 "body")) ∧
    (∀ (env : Env) (fuel : Nat) (file : String) (data : JObj) (st st1 : TaftState) (e : JsError),
       Taft.buildTry env fuel file data st = (Except.error e, st1) →
       e.code ≠ some "EISDIR" →
       Taft.build env fuel file data st
         = (some { body := "", data := [], source := some file },
            errLog st1 ("error building " ++ file ++ ": " ++ e.message))) := by
  constructor
  · intro env render layout content isLayout st st1 e ht htry
    unfold Taft.applyLayoutWith
    rw [ht, if_pos rfl, htry]
  · intro env fuel file data st st1 e hbt hne
    simp only [Taft.build, hbt]
    rw [if_neg hne]

/-- Witness: the wrap applied at the concrete failing layout render,
and the swallow applied at a concrete unreadable file. -/
theorem layout_error_wrapped_then_swallowed_witness :
    Taft.applyLayoutWith cexEnv (Taft.renderTemplate cexEnv 1) (JVal.str "lay")
        pageContent false cexSt
      = (Except.error { code := none, message := "unable to render layout lay (boom)" },
         dropPartialEntry stMemo "body") ∧
    Taft.build envENOENT 1 "f.html" [] st0
      = (some { body := "", data := [], source := some "f.html" },
         errLog st0 "error building f.html: ENOENT") := by
  constructor
  · exact (layout_error_wrapped_then_swallowed).1 cexEnv (Taft.renderTemplate cexEnv 1)
      (JVal.str "lay") pageContent false cexSt stMemo { code := none, message := "boom" } rfl rfl
  · exact (layout_error_wrapped_then_swallowed).2 envENOENT 1 "f.html" [] st0 st0
      { code := some "ENOENT", message := "ENOENT" } rfl (by decide)

theorem ite_debugLog_layouts (c : Prop) [Decidable c] (x : TaftState) (m : String) :
    (if c then debugLog x m else x).layouts = x.layouts := by
  split
  · exact debugLog_layouts x m
  · rfl

theorem ite_debugLog_defaultLayout (c : Prop) [Decidable c] (x : TaftState) (m : String) :
    (if c then debugLog x m else x).defaultLayout = x.defaultLayout := by
  split
  · exact debugLog_defaultLayout x m
  · rfl

theorem taftLayouts_fields (items : List String) (st : TaftState) :
    (Taft.layouts items st).layouts = layoutsRegister items st.layouts ∧
    (Taft.layouts items st).defaultLayout
      = layoutsDefaultAfter (layoutsRegister items st.layouts) st := by
  constructor
  · simp only [Taft.layouts]
    rw [ite_debugLog_layouts]
    dsimp only
    rw [debugLog_layouts]
  · simp only [Taft.layouts]
    rw [ite_debugLog_defaultLayout]

theorem layoutsDefaultAfter_not_single (m : List (String × LayoutVal)) (st : TaftState)
    (hlen : m.length ≠ 1) (hopt : optStrTruthy st.optionsDefaultLayout = false) :
    layoutsDefaultAfter m st = st.defaultLayout := by
  rcases m with _ | ⟨⟨n0, v0⟩, _ | ⟨⟨n1, v1⟩, rest⟩⟩
  · cases ho : st.optionsDefaultLayout with
    | none => simp [layoutsDefaultAfter, ho]
    | some d =>
      rw [ho] at hopt
      simp only [optStrTruthy] at hopt
      simp [layoutsDefaultAfter, ho, hopt]
  · exact absurd rfl hlen
  · cases ho : st.optionsDefaultLayout with
    | none => simp [layoutsDefaultAfter, ho]
    | some d =>
      rw [ho] at hopt
      simp only [optStrTruthy] at hopt
      simp [layoutsDefaultAfter, ho, hopt]

theorem layoutsDefaultAfter_options (m : List (String × LayoutVal)) (st : TaftState)
    (d : String) (ho : st.optionsDefaultLayout = some d) (hd : d ≠ "")
    (hlen : m.length ≠ 1) : layoutsDefaultAfter m st = some (stripExtname d) := by
  rcases m with _ | ⟨⟨n0, v0⟩, _ | ⟨⟨n1, v1⟩, rest⟩⟩
  · simp [layoutsDefaultAfter, ho, hd]
  · exact absurd rfl hlen
  · simp [layoutsDefaultAfter, ho, hd]

/-- C5: A file whose front matter sets published to exactly false or
exactly 0 compiles to an absent template, whether compiled as a page
or as a layout; build on it returns the absent skip result, distinct
from every Content; and a registered layout pointing at such a file
resolves to absent. -/
theorem published_false_skipped
    (env : Env) (fuel : Nat) (file : String) (data : JObj) (st : TaftState)
    (ctx : JObj) (content : String)
    (hfs : env.fs (env.resolve file) = Except.ok (ctx, content))
    (hp : aget ctx "published" = some (JVal.bool false) ∨
          aget ctx "published" = some (JVal.num 0)) :
    (∀ isLayout, Taft.createTemplate env (env.resolve file) isLayout st = (Except.ok none, st)) ∧
    (Taft.build env fuel file data st).1 = none ∧
    (∀ name, aget st.layouts (layoutKeyOf name) = some (LayoutVal.path (env.resolve file)) →
       (Taft.getLayout env name st).1 = Except.ok none) := by
  have hct : ∀ isLayout, Taft.createTemplate env (env.resolve file) isLayout st
      = (Except.ok none, st) := by
    intro isLayout
    simp only [Taft.createTemplate, hfs]
    rcases hp with h | h <;> simp only [h]
  refine ⟨hct, ?_, ?_⟩
  · simp only [Taft.build, Taft.buildTry, hct false]
  · intro name hreg
    simp only [Taft.getLayout, hreg, hct true]

/-- Witness: the unpublished page p.html is skipped when compiled as a
layout, by build, and as the registered layout p. -/
theorem published_false_skipped_witness :
    Taft.createTemplate wEnv5 (wEnv5.resolve "p.html") true wSt5 = (Except.ok none, wSt5) ∧
    (Taft.build wEnv5 1 "p.html" [] wSt5).1 = none ∧
    (Taft.getLayout wEnv5 "p" wSt5).1 = Except.ok none := by
  have h := published_false_skipped wEnv5 1 "p.html" [] wSt5
      [("published", JVal.bool false)] "X" rfl (Or.inl rfl)
  exact ⟨h.1 true, h.2.1, h.2.2 "p" rfl⟩

/-- C6: After any registering layouts call, a registry holding exactly
one layout makes that layout the default automatically; and when the
registry does not hold exactly one layout and the caller supplied no
truthy defaultLayout option (the explicit override channel), the
default is exactly what it was before the call. -/
theorem single_layout_becomes_default (items : List String) (st : TaftState) :
    (∀ name v, (Taft.layouts items st).layouts = [(name, v)] →
       (Taft.layouts items st).defaultLayout = some name) ∧
    ((Taft.layouts items st).layouts.length ≠ 1 →
     optStrTruthy st.optionsDefaultLayout = false →
     (Taft.layouts items st).defaultLayout = st.defaultLayout) := by
  obtain ⟨hL, hD⟩ := taftLayouts_fields items st
  constructor
  · intro name v hsing
    rw [hL] at hsing
    rw [hD, hsing]
    rfl
  · intro hlen hopt
    rw [hL] at hlen
    rw [hD]
    exact layoutsDefaultAfter_not_single _ st hlen hopt

/-- Witness: registering a single layout makes it the default, and
registering a second one leaves a previously assigned default alone. -/
theorem single_layout_becomes_default_witness :
    (Taft.layouts ["a.html"] st0).defaultLayout = some "a" ∧
    (Taft.layouts ["a.html", "b.html"] st0).defaultLayout = none := by
  constructor
  · exact (single_layout_becomes_default ["a.html"] st0).1 "a" (LayoutVal.path "a.html") rfl
  · exact ((single_layout_becomes_default ["a.html", "b.html"] st0).2 (by decide) rfl).trans rfl

/-- C7 counterexample: registering two layouts while the constructor
options name the never-registered default nope installs nope as the
default with no registration check, so an attempt to set the default
by name can take effect although the name is not in the registry. -/
theorem options_default_unregistered_cex :
    (Taft.layouts ["a.html", "b.html"] st7).defaultLayout = some "nope" ∧
    aget (Taft.layouts ["a.html", "b.html"] st7).layouts "nope" = none :=
  ⟨rfl, rfl⟩

/-- C7 amended: the defaultLayout method takes effect only when the
stripped name is registered, otherwise it leaves the default unchanged
and emits an informational diagnostic; but the options.defaultLayout
fallback inside the layouts method installs a default without any
registration check whenever the registry does not hold exactly one
layout. -/
theorem defaultLayout_requires_registration :
    (∀ (layout : String) (st : TaftState),
       ((st.layouts.map Prod.fst).contains (stripExtname layout) = true →
          Taft.defaultLayout layout st
            = { st with defaultLayout := some (stripExtname layout) }) ∧
       ((st.layouts.map Prod.fst).contains (stripExtname layout) = false →
          Taft.defaultLayout layout st
            = infoLog st ("Not setting default layout. Could not find: "
                ++ stripExtname layout))) ∧
    (∀ (items : List String) (st : TaftState) (d : String),
       st.optionsDefaultLayout = some d → d ≠ "" →
       (layoutsRegister items st.layouts).length ≠ 1 →
       (Taft.layouts items st).defaultLayout = some (stripExtname d)) := by
  constructor
  · intro layout st
    constructor
    · intro h
      unfold Taft.defaultLayout
      rw [h, if_pos rfl]
    · intro h
      unfold Taft.defaultLayout
      rw [h]
      simp
  · intro items st d ho hd hlen
    rw [(taftLayouts_fields items st).2]
    exact layoutsDefaultAfter_options _ st d ho hd hlen

/-- Witness: the method path applied at a registered and at an
unregistered name, and the unchecked options path at a registry of
two layouts. -/
theorem defaultLayout_requires_registration_witness :
    Taft.defaultLayout "a.html" wSt7 = { wSt7 with defaultLayout := some "a" } ∧
    Taft.defaultLayout "zzz" wSt7
      = infoLog wSt7 "Not setting default layout. Could not find: zzz" ∧
    (Taft.layouts ["a.html", "c.html"] st7).defaultLayout = some "nope" := by
  refine ⟨?_, ?_, ?_⟩
  · exact ((defaultLayout_requires_registration.1 "a.html" wSt7).1 (by decide)).trans (by rfl)
  · exact ((defaultLayout_requires_registration.1 "zzz" wSt7).2 (by decide)).trans (by rfl)
  · exact (defaultLayout_requires_registration.2 ["a.html", "c.html"] st7 "nope" rfl
      (by decide) (by decide)).trans rfl

/-- C8: When the merged context of a render resolves the layout key to
the basename of the file itself, with or without its extension, the
render closure clears the layout before layout application: the page
compiles against a context carrying layout undefined, no layout is
applied, the shared state is untouched, and the result is exactly the
direct compilation of the page body, so a file is never rendered with
itself as its layout. -/
theorem self_layout_cleared (env : Env) (fuel : Nat) (t : Template) (callData : JObj)
    (preferGlobal : Bool) (st : TaftState)
    (h : aget (tplDataOf t callData preferGlobal) "layout" = some (JVal.str (basename t.file)) ∨
         aget (tplDataOf t callData preferGlobal) "layout"
           = some (JVal.str (stripExtname t.file))) :
    Taft.renderTemplate env (fuel + 1) t callData preferGlobal st
      = match env.compile t.page st.helpers st.partials
          (aset (tplDataOf t callData preferGlobal) "layout" JVal.undef) with
        | Except.ok body =>
          (Except.ok { body := body,
                       data := aset (tplDataOf t callData preferGlobal) "layout" JVal.undef,
                       source := none }, st)
        | Except.error e => (Except.error e, st) := by
  have hclear : (match aget (tplDataOf t callData preferGlobal) "layout" with
      | some (JVal.str s) =>
        if s = basename t.file ∨ s = stripExtname t.file then
          aset (tplDataOf t callData preferGlobal) "layout" JVal.undef
        else tplDataOf t callData preferGlobal
      | _ => tplDataOf t callData preferGlobal)
      = aset (tplDataOf t callData preferGlobal) "layout" JVal.undef := by
    rcases h with h | h <;> rw [h] <;> simp
  have hundef : (aget (aset (tplDataOf t callData preferGlobal) "layout" JVal.undef)
      "layout").getD JVal.undef = JVal.undef := by
    rw [aget_aset, if_pos rfl]
    rfl
  simp only [Taft.renderTemplate]
  rw [hclear]
  rcases hc : env.compile t.page st.helpers st.partials
      (aset (tplDataOf t callData preferGlobal) "layout" JVal.undef) with e | body
  · rfl
  · rw [hundef]
    rfl

/-- Witness: a concrete file a.html whose merged context names a, its
own basename without extension, as its layout renders with the layout
cleared and no layout applied. -/
theorem self_layout_cleared_witness :
    Taft.renderTemplate env8 1 t8 [] false st0
      = (Except.ok { body := "BODY", data := [("layout", JVal.undef)], source := none }, st0) :=
  (self_layout_cleared env8 0 t8 [] false st0 (Or.inr rfl)).trans rfl

/-- C9: A layout name that does not resolve in the registry makes
getLayout log a diagnostic and return absent rather than throw, and
applyLayout called with that name returns the given content unchanged:
a missing layout is not fatal. -/
theorem missing_layout_nonfatal (env : Env) (fuel : Nat) (name : String) (content : Content)
    (isLayout : Bool) (st : TaftState)
    (h : aget st.layouts (layoutKeyOf name) = none) :
    Taft.getLayout env name st
      = (Except.ok none, errLog st ("could not find layout: " ++ layoutKeyOf name)) ∧
    (Taft.applyLayout env fuel (JVal.str name) content isLayout st).1 = Except.ok content := by
  have hget : Taft.getLayout env name st
      = (Except.ok none, errLog st ("could not find layout: " ++ layoutKeyOf name)) := by
    simp only [Taft.getLayout, h]
  refine ⟨hget, ?_⟩
  by_cases hn : name = ""
  · subst hn
    rfl
  · have ht : truthy (JVal.str name) = true := by
      simp [truthy, hn]
    unfold Taft.applyLayout Taft.applyLayoutWith
    rw [ht, if_pos rfl]
    unfold Taft.applyLayoutTryWith
    dsimp only
    rw [hget]

/-- Witness: the unregistered name ghost logs a diagnostic and is
skipped, and the content passes through applyLayout unchanged. -/
theorem missing_layout_nonfatal_witness :
    Taft.getLayout envENOENT "ghost" st0
      = (Except.ok none, errLog st0 "could not find layout: ghost") ∧
    (Taft.applyLayout envENOENT 1 (JVal.str "ghost") pageContent false st0).1
      = Except.ok pageContent := by
  have h := missing_layout_nonfatal envENOENT 1 "ghost" pageContent false st0 rfl
  exact ⟨h.1.trans (by rfl), h.2⟩

/-- C10: build never lets an exception reach its caller.  A thrown
error carrying the EISDIR code (a directory path) yields the absent
result, as does a skipped unpublished page; every other thrown decode
or render error is only logged and replaced by a Content with an empty
body whose source is the file argument; and every Content build does
produce carries the file argument as its source. -/
theorem build_never_raises (env : Env) (fuel : Nat) (file : String) (data : JObj)
    (st : TaftState) :
    (∀ e st1, Taft.buildTry env fuel file data st = (Except.error e, st1) →
       (e.code = some "EISDIR" → Taft.build env fuel file data st = (none, st1)) ∧
       (e.code ≠ some "EISDIR" →
          Taft.build env fuel file data st
            = (some { body := "", data := [], source := some file },
               errLog st1 ("error building " ++ file ++ ": " ++ e.message)))) ∧
    (∀ st1, Taft.buildTry env fuel file data st = (Except.ok none, st1) →
       Taft.build env fuel file data st = (none, st1)) ∧
    ((Taft.build env fuel file data st).1 = none ∨
       ∃ c, (Taft.build env fuel file data st).1 = some c ∧ c.source = some file) := by
  refine ⟨?_, ?_, ?_⟩
  · intro e st1 hbt
    constructor
    · intro hc
      simp only [Taft.build, hbt]
      rw [if_pos hc]
    · intro hc
      simp only [Taft.build, hbt]
      rw [if_neg hc]
  · intro st1 hbt
    simp only [Taft.build, hbt]
  · rcases hbt : Taft.buildTry env fuel file data st with ⟨res, st1⟩
    rcases res with e | oc
    · by_cases hc : e.code = some "EISDIR"
      · left
        simp only [Taft.build, hbt]
        rw [if_pos hc]
      · right
        refine ⟨{ body := "", data := [], source := some file }, ?_, rfl⟩
        simp only [Taft.build, hbt]
        rw [if_neg hc]
    · rcases oc with _ | c
      · left
        simp only [Taft.build, hbt]
      · right
        refine ⟨{ c with source := some file }, ?_, rfl⟩
        simp only [Taft.build, hbt]

/-- Witness: a directory path yields the absent result through the
EISDIR branch of the catch. -/
theorem build_never_raises_witness :
    Taft.build envEISDIR 1 "somedir" [] st0 = (none, st0) :=
  ((build_never_raises envEISDIR 1 "somedir" [] st0).1
      { code := some "EISDIR", message := "illegal operation on a directory" } st0 rfl).1 rfl
